import Mathlib

/-!
# Verification of the xactor mailbox/dispatch/supervision core

Shallow embedding of the repository's core (src/addr.rs, src/caller.rs,
src/supervisor.rs) and proofs of the frozen claims about it.

Modelling conventions:
* Machine integers (`u64` actor ids, stream ids) become `Nat`; no overflow
  is relevant to any claim.
* Async execution is sequential in the source (the consumer loop awaits each
  event's future to completion before dequeuing the next), so `Exec` payloads
  are modelled as plain state transformers `A → Ctx A → A × Ctx A`.
* The unbounded mpsc channel is a `Mailbox`: a queue of events plus a
  `closed` flag; `start_send` on the futures unbounded sender fails exactly
  when the channel is disconnected (the receiver is gone).
* `Arc`/`Weak` reference counting over the producer end is modelled by
  counting, in a list of live handles, the handle values that contain a
  strong producer reference (an `Addr` field); a `Weak` upgrade succeeds
  exactly when that count is positive.
* The consumer loop of `Supervisor::start` is an infinite `loop`; it is
  modelled with explicit fuel (`runLoop fuel …`), where fuel counts outer
  loop iterations and a `done` flag records whether the loop ever exited
  (the source has no exit branch, so no constructor path sets it).
* Observable behaviour is recorded as a trace of `Action`s: factory
  invocation, hook runs, event executions and stream aborts.
-/

namespace Xactor

/-- The error taxonomy the core needs (spec §7): the in-process `Error`
collaborator, restricted to the variants the embedded operations produce. -/
inductive Error where
  | mailboxClosed
  | replyCanceled
deriving DecidableEq, Repr

/-- State of the `oneshot` exit channel as seen through its (shared)
receiver: still pending, completed by `send(())`, or canceled because the
sender was dropped without sending.  Awaiting the shared receiver resolves
exactly when the state is not `pending` (with `Err(Canceled)` in the
`canceled` case, which `wait_for_stop` discards via `.ok()`). -/
inductive ExitState where
  | pending
  | completed
  | canceled
deriving DecidableEq, Repr

/-- Modelled from the spec: the per-actor execution `Context` internals are
out of scope of src/ (§1, §6).  Per §6 it provides the actor's identity,
a registry of background stream handles "supporting existence check,
removal, and iteration with an abort operation on each", and optionally
carries the shared exit-signal receiver.  The registry is a list of stream
ids; `rx_exit : Option Unit` marks whether the shared exit receiver is
present (the channel's state lives outside the copies and is tracked
separately). -/
structure Ctx (A : Type) where
  actor_id : Nat
  streams : List Nat
  rx_exit : Option Unit
deriving Repr

/-- Modelled from the spec: `Context::new(rx_exit)` (not under src/) mints
the context with an empty stream registry, storing the provided optional
exit receiver (§3, §6); supervisor.rs line 82 receives back the context,
the mailbox consumer and the producer. -/
def Ctx.new (A : Type) (actorId : Nat) (rxExit : Option Unit) : Ctx A :=
  { actor_id := actorId, streams := [], rx_exit := rxExit }

/-- `ActorEvent<A>` from addr.rs lines 14-18: execute a closure against the
actor and its context, stop, or deregister a background stream by id. -/
inductive ActorEvent (A : Type) where
  | Exec : (A → Ctx A → A × Ctx A) → ActorEvent A
  | Stop : Option Error → ActorEvent A
  | RemoveStream : Nat → ActorEvent A

/-- Whether an event is a `Stop`. -/
def ActorEvent.isStop {A : Type} : ActorEvent A → Bool
  | .Stop _ => true
  | _ => false

/-- The actor's mailbox: the unbounded mpsc channel of events.  `closed`
records that the consumer end is gone (disconnected channel). -/
structure Mailbox (A : Type) where
  queue : List (ActorEvent A)
  closed : Bool

/-- `UnboundedSender::start_send`: on an unbounded channel this fails
exactly when the channel is disconnected, otherwise it appends the event. -/
def Mailbox.startSend {A : Type} (mb : Mailbox A) (ev : ActorEvent A) :
    Except Error (Mailbox A) :=
  if mb.closed then .error Error.mailboxClosed
  else .ok { mb with queue := mb.queue ++ [ev] }

/-- `Addr<A>` from addr.rs lines 24-28: actor id, the strong reference to
the mailbox producer (`tx : Arc<UnboundedSender<…>>`, modelled as the id
of the shared producer it points to), and the optional shared exit
receiver. -/
structure Addr (A : Type) where
  actor_id : Nat
  tx : Nat
  rx_exit : Option Unit

/-- `impl Clone for Addr` (addr.rs lines 30-38): copies the id, clones the
producer `Arc` (same shared producer) and the shared exit receiver. -/
def Addr.clone {A : Type} (a : Addr A) : Addr A :=
  { actor_id := a.actor_id, tx := a.tx, rx_exit := a.rx_exit }

/-- `Addr::actor_id` (addr.rs lines 54-56). -/
def Addr.actorId {A : Type} (a : Addr A) : Nat :=
  a.actor_id

/-- `impl PartialEq for Addr` (addr.rs lines 40-44): equality is
`actor_id` comparison only. -/
def Addr.beq {A : Type} (x y : Addr A) : Bool :=
  x.actor_id == y.actor_id

/-- `impl Hash for Addr` (addr.rs lines 46-50): only `actor_id` is fed to
the hasher (the hasher is abstracted as a function on the fed value). -/
def Addr.hashWith {A : Type} (hf : Nat → Nat) (x : Addr A) : Nat :=
  hf x.actor_id

/-- `Addr::stop` (addr.rs lines 59-62): enqueue `Stop(err)` via
`start_send`; the `?` propagates exactly the channel-closed failure. -/
def Addr.stop {A : Type} (_a : Addr A) (err : Option Error) (mb : Mailbox A) :
    Except Error (Mailbox A) :=
  mb.startSend (.Stop err)

/-- `Addr::send` (addr.rs lines 83-95): enqueue an `Exec` closure that runs
the handler on the message and discards its result; returns without running
the handler (the actor is not an input), failing exactly on a closed
channel.  `h` is the `Handler::handle` implementation for the message type
(external contract, §6). -/
def Addr.send {A T : Type} (_a : Addr A) (h : A → Ctx A → T → A × Ctx A)
    (msg : T) (mb : Mailbox A) : Except Error (Mailbox A) :=
  mb.startSend (.Exec (fun actor ctx => h actor ctx msg))

/-- The closure environment captured by the `Caller` built in `Addr::caller`
(addr.rs lines 98-107): the closure captures `let addr = self.clone()`, a
full clone of the address (a strong producer reference). -/
structure CallerEnv (A : Type) where
  addr : Addr A

/-- `Addr::caller` (addr.rs lines 98-107): capture a full clone of this
address in the returned handle's closure. -/
def Addr.mkCallerEnv {A : Type} (a : Addr A) : CallerEnv A :=
  { addr := a.clone }

/-- A `Weak<UnboundedSender<…>>`: remembers which shared producer it points
to but holds no strong reference. -/
structure WeakRef where
  target : Nat

/-- `Addr::sender` (addr.rs lines 110-128): the returned handle's closure
captures only `Arc::downgrade(&self.tx)`, a weak reference to the
producer. -/
def Addr.mkSenderWeak {A : Type} (a : Addr A) : WeakRef :=
  { target := a.tx }

/-- `Weak::upgrade`: succeeds exactly when the pointee's strong count is
positive. -/
def WeakRef.upgrade (w : WeakRef) (strong : Nat) : Option Nat :=
  if strong = 0 then none else some w.target

/-- The body of the closure inside `Addr::sender` (addr.rs lines 115-127):
try to upgrade the weak producer reference; on success enqueue the `Exec`
event (propagating a channel-closed error), on failure return `Ok(())`
without touching anything.  `strong` is the producer's strong count at send
time. -/
def senderSendFn {A T : Type} (w : WeakRef) (h : A → Ctx A → T → A × Ctx A)
    (msg : T) (strong : Nat) (mb : Mailbox A) :
    Except Error Unit × Mailbox A :=
  match w.upgrade strong with
  | some _ =>
      match mb.startSend (.Exec (fun actor ctx => h actor ctx msg)) with
      | .ok mb2 => (.ok (), mb2)
      | .error e => (.error e, mb)
  | none => (.ok (), mb)

/-- A handle value alive somewhere in the process, as far as producer
reference counting is concerned: an `Addr` holds a strong producer
reference; a `Caller` holds one through its captured address clone
(addr.rs line 102); a `Sender` holds only the weak reference
(addr.rs line 114). -/
inductive LiveHandle (A : Type) where
  | addr : Addr A → LiveHandle A
  | caller : CallerEnv A → LiveHandle A
  | sender : WeakRef → LiveHandle A

/-- How many strong references to the shared producer `tx` one live handle
contributes. -/
def LiveHandle.strongRefs {A : Type} (tx : Nat) : LiveHandle A → Nat
  | .addr a => if a.tx = tx then 1 else 0
  | .caller c => if c.addr.tx = tx then 1 else 0
  | .sender _ => 0

/-- Strong count of the shared producer `tx` over all live handles. -/
def strongCount {A : Type} (tx : Nat) (hs : List (LiveHandle A)) : Nat :=
  (hs.map (LiveHandle.strongRefs tx)).sum

/-- The mpsc invariant from spec §3: the channel closes exactly when the
last strong producer reference is dropped. -/
def mailboxClosedFor {A : Type} (tx : Nat) (hs : List (LiveHandle A)) : Bool :=
  strongCount tx hs == 0

/-- How `Addr::wait_for_stop` (addr.rs lines 157-163) can behave, given the
exit channel's current state: return, stay suspended awaiting the shared
receiver, or suspend forever on `pending::<()>()`. -/
inductive WaitOutcome where
  | resolved
  | suspendedOnSignal
  | suspendedForever
deriving DecidableEq, Repr

/-- `Addr::wait_for_stop` (addr.rs lines 157-163): with an exit receiver,
await it (resolving — errors discarded by `.ok()` — exactly when the
channel is no longer pending); with none, await `pending()` forever.
`st` is the exit channel's state at the observation instant. -/
def Addr.waitForStop {A : Type} (a : Addr A) (st : ExitState) : WaitOutcome :=
  match a.rx_exit with
  | some _ => if st = ExitState.pending then .suspendedOnSignal else .resolved
  | none => .suspendedForever

/-- `Caller<T>` as declared in caller.rs lines 16-19: a public `actor_id`
field and the boxed async call closure (abstracted as a function from the
message to a fallible reply `R = T::Result`). -/
structure Caller (T R : Type) where
  actor_id : Nat
  caller_fn : T → Except Error R

/-- `impl PartialEq for Caller` (caller.rs lines 27-31): `actor_id`
comparison only. -/
def Caller.beq {T R : Type} (x y : Caller T R) : Bool :=
  x.actor_id == y.actor_id

/-- `impl Hash for Caller` (caller.rs lines 33-37): only `actor_id` is fed
to the hasher. -/
def Caller.hashWith {T R : Type} (hf : Nat → Nat) (x : Caller T R) : Nat :=
  hf x.actor_id

/-- `Sender<T>` as declared in caller.rs lines 50-53: a public `actor_id`
field and the boxed cloneable send closure. -/
structure Sender (T : Type) where
  actor_id : Nat
  sender_fn : T → Except Error Unit

/-- `impl PartialEq for Sender` (caller.rs lines 61-65): `actor_id`
comparison only. -/
def Sender.beq {T : Type} (x y : Sender T) : Bool :=
  x.actor_id == y.actor_id

/-- `impl Hash for Sender` (caller.rs lines 67-71): only `actor_id` is fed
to the hasher. -/
def Sender.hashWith {T : Type} (hf : Nat → Nat) (x : Sender T) : Nat :=
  hf x.actor_id

/-! ## The supervised consumer loop (supervisor.rs lines 75-121) -/

/-- The actor's lifecycle hooks (external contract, spec §6), with the
mutations a hook makes to the actor and the context kept even when the hook
also reports an error (in Rust the hooks take `&mut`; the `Result` is a
separate channel): `started` may fail (failure aborts startup), `stopped`
returns nothing, `restarted` may fail (caller ignores the failure). -/
structure ActorImpl (A : Type) where
  onStarted : A → Ctx A → (A × Ctx A) × Option Error
  onStopped : A → Ctx A → A × Ctx A
  onRestarted : A → Ctx A → (A × Ctx A) × Option Error

/-- Observable actions of `Supervisor::start` and its consumer loop. -/
inductive Action where
  | factoryInvoke
  | startHook
  | execRun
  | removeStreamRun (id : Nat)
  | stopHook
  | abortStream (id : Nat)
  | restartHook
deriving DecidableEq, Repr

/-- Result of the inner `while let Some(event) = rx.next().await` loop. -/
structure InnerResult (A : Type) where
  actor : A
  ctx : Ctx A
  trace : List Action
  rest : List (ActorEvent A)
  sawStop : Bool

/-- The inner event loop (supervisor.rs lines 98-108): dequeue events until
`Stop` breaks out or the channel yields no more events; `Exec` runs the
closure against the actor and context; `RemoveStream(id)` deregisters the
stream if present.  `evs` is the sequence of events the channel delivers
before reporting closed. -/
def runInner {A : Type} (a : A) (c : Ctx A) :
    List (ActorEvent A) → InnerResult A
  | [] => { actor := a, ctx := c, trace := [], rest := [], sawStop := false }
  | .Exec f :: evs =>
      let p := f a c
      let r := runInner p.1 p.2 evs
      { r with trace := Action.execRun :: r.trace }
  | .Stop _ :: evs =>
      { actor := a, ctx := c, trace := [], rest := evs, sawStop := true }
  | .RemoveStream id :: evs =>
      let c2 :=
        if id ∈ c.streams then
          { c with streams := c.streams.filter (fun j => j ≠ id) }
        else c
      let r := runInner a c2 evs
      { r with trace := Action.removeStreamRun id :: r.trace }

/-- Result of the hook phase at the bottom of the outer loop body. -/
structure PhaseResult (A : Type) where
  actor : A
  ctx : Ctx A
  trace : List Action

/-- The hook phase (supervisor.rs lines 110-115): run the stop hook, abort
every stream handle currently registered (in the context as the stop hook
left it), then run the restart hook, swallowing its failure via `.ok()`. -/
def hookPhase {A : Type} (impl : ActorImpl A) (a : A) (c : Ctx A) :
    PhaseResult A :=
  let s := impl.onStopped a c
  let r := (impl.onRestarted s.1 s.2).1
  { actor := r.1, ctx := r.2,
    trace := Action.stopHook ::
      (s.2.streams.map Action.abortStream ++ [Action.restartHook]) }

/-- Result of running the outer `loop` for a bounded number of iterations.
`done` records whether the loop exited; the source loop has no exit branch,
so no equation below ever sets it. -/
structure LoopResult (A : Type) where
  actor : A
  ctx : Ctx A
  trace : List Action
  rest : List (ActorEvent A)
  done : Bool

/-- The outer `loop { … }` (supervisor.rs lines 97-116), unfolded `fuel`
times: each iteration drains the mailbox until a `Stop` or until the
channel reports closed, then runs the hook phase, then loops.  `evs` is
what the channel still has to deliver; an exhausted `evs` models the
closed channel (every re-attempted dequeue again reports closed). -/
def runLoop {A : Type} (impl : ActorImpl A) :
    Nat → A → Ctx A → List (ActorEvent A) → LoopResult A
  | 0, a, c, evs =>
      { actor := a, ctx := c, trace := [], rest := evs, done := false }
  | n + 1, a, c, evs =>
      let i := runInner a c evs
      let h := hookPhase impl i.actor i.ctx
      let l := runLoop impl n h.actor h.ctx i.rest
      { actor := l.actor, ctx := l.ctx,
        trace := i.trace ++ h.trace ++ l.trace,
        rest := l.rest, done := l.done }

/-- What `Supervisor::start` (supervisor.rs lines 75-121) produces: the
start result (the address, or the start hook's error), the observable
trace (factory invocation, start hook, then — on success — the spawned
loop's actions), the spawned loop's outcome, and the exit channel's state
at the moment `start` returns. -/
structure StartResult (A : Type) where
  result : Except Error (Addr A)
  trace : List Action
  loopRun : Option (LoopResult A)
  exitStateAtReturn : ExitState

/-- `Supervisor::start` (supervisor.rs lines 75-121): create the exit
channel and the context (carrying the shared exit receiver), build the
address from the context's id, the producer and the exit receiver; invoke
the factory once; run the start hook, aborting (no loop spawned) on its
failure; otherwise spawn the consumer loop.  The exit sender `tx_exit`
(line 80) is never sent to and never moved into the spawned task, so it is
dropped when `start` returns: the exit channel's state at return is
`canceled` on every path.  `txId` names the shared producer `Arc`; `fuel`
and `evs` parameterize the observed portion of the spawned loop. -/
def Supervisor.start {A : Type} (impl : ActorImpl A) (f : Unit → A)
    (actorId : Nat) (txId : Nat) (fuel : Nat) (evs : List (ActorEvent A)) :
    StartResult A :=
  let ctx0 := Ctx.new A actorId (some ())
  let addr : Addr A :=
    { actor_id := ctx0.actor_id, tx := txId, rx_exit := ctx0.rx_exit }
  let actor0 := f ()
  let s := impl.onStarted actor0 ctx0
  match s.2 with
  | some e =>
      { result := .error e,
        trace := [Action.factoryInvoke, Action.startHook],
        loopRun := none,
        exitStateAtReturn := ExitState.canceled }
  | none =>
      let l := runLoop impl fuel s.1.1 s.1.2 evs
      { result := .ok addr,
        trace := Action.factoryInvoke :: Action.startHook :: l.trace,
        loopRun := some l,
        exitStateAtReturn := ExitState.canceled }

/-! ## Concrete fixtures used to instantiate the general theorems -/

/-- A concrete actor implementation over `Nat` state with identity hooks. -/
def implW : ActorImpl Nat :=
  { onStarted := fun a c => ((a, c), none)
    onStopped := fun a c => (a, c)
    onRestarted := fun a c => ((a, c), none) }

/-- A concrete actor implementation whose start hook fails. -/
def implFailStart : ActorImpl Nat :=
  { onStarted := fun a c => ((a, c), some Error.replyCanceled)
    onStopped := fun a c => (a, c)
    onRestarted := fun a c => ((a, c), none) }

/-- A concrete context with one registered stream handle. -/
def ctxW : Ctx Nat :=
  { actor_id := 7, streams := [3], rx_exit := some () }

/-- The address `Supervisor::start implW … 7 0 …` hands back. -/
def addrW : Addr Nat :=
  { actor_id := 7, tx := 0, rx_exit := some () }

/-- An address with no exit receiver configured. -/
def addrNoExit : Addr Nat :=
  { actor_id := 9, tx := 1, rx_exit := none }

/-- A concrete `Exec` event incrementing the actor. -/
def incEv : ActorEvent Nat :=
  .Exec (fun a c => (a + 1, c))

/-- A concrete handler: add the message to the actor state. -/
def handlerW : Nat → Ctx Nat → Nat → Nat × Ctx Nat :=
  fun a c m => (a + m, c)

/-- An open, empty mailbox. -/
def mbW : Mailbox Nat :=
  { queue := [], closed := false }

/-- A closed mailbox. -/
def mbClosedW : Mailbox Nat :=
  { queue := [], closed := true }

/-- Two callers with the same actor id but different captured closures. -/
def callerA : Caller Nat Nat :=
  { actor_id := 5, caller_fn := fun n => .ok (n + 1) }

/-- See `callerA`. -/
def callerB : Caller Nat Nat :=
  { actor_id := 5, caller_fn := fun _ => .error Error.mailboxClosed }

/-- Two senders with the same actor id but different captured closures. -/
def senderA : Sender Nat :=
  { actor_id := 5, sender_fn := fun _ => .ok () }

/-- See `senderA`. -/
def senderB : Sender Nat :=
  { actor_id := 5, sender_fn := fun _ => .error Error.mailboxClosed }

/-- Two addresses with the same actor id but different producers and exit
receivers. -/
def addrA : Addr Nat :=
  { actor_id := 5, tx := 0, rx_exit := none }

/-- See `addrA`. -/
def addrB : Addr Nat :=
  { actor_id := 5, tx := 8, rx_exit := some () }

/-! ## Helper lemmas about the consumer loop -/

/-- The inner loop distributes over a `Stop`-free prefix: it processes the
prefix fully (emitting its trace and threading its state) and then
continues on the remainder. -/
theorem runInner_nostop_append {A : Type} (pre : List (ActorEvent A)) :
    ∀ (a : A) (c : Ctx A) (post : List (ActorEvent A)),
    (∀ ev ∈ pre, ev.isStop = false) →
    runInner a c (pre ++ post) =
      { actor := (runInner (runInner a c pre).actor (runInner a c pre).ctx post).actor
        ctx := (runInner (runInner a c pre).actor (runInner a c pre).ctx post).ctx
        trace := (runInner a c pre).trace ++
          (runInner (runInner a c pre).actor (runInner a c pre).ctx post).trace
        rest := (runInner (runInner a c pre).actor (runInner a c pre).ctx post).rest
        sawStop := (runInner (runInner a c pre).actor (runInner a c pre).ctx post).sawStop } := by
  induction pre with
  | nil => intro a c post _; simp [runInner]
  | cons ev evs ih =>
      intro a c post hfree
      match ev with
      | .Exec f =>
          simp only [List.cons_append, runInner, List.append_eq]
          rw [ih _ _ post (fun e he => hfree e (List.mem_cons_of_mem _ he))]
      | .Stop e =>
          exact absurd (hfree _ (List.mem_cons_self _ _)) (by simp [ActorEvent.isStop])
      | .RemoveStream id =>
          simp only [List.cons_append, runInner, List.append_eq]
          rw [ih _ _ post (fun e he => hfree e (List.mem_cons_of_mem _ he))]

/-- The inner loop emits only event-processing actions: never a factory
invocation, a hook marker or a stream abort. -/
theorem runInner_trace_actions {A : Type} (evs : List (ActorEvent A)) :
    ∀ (a : A) (c : Ctx A) (act : Action), act ∈ (runInner a c evs).trace →
      act = Action.execRun ∨ ∃ id, act = Action.removeStreamRun id := by
  induction evs with
  | nil => intro a c act h; simp [runInner] at h
  | cons ev evs ih =>
      intro a c act h
      match ev with
      | .Exec f =>
          simp only [runInner, List.mem_cons] at h
          rcases h with h | h
          · exact Or.inl h
          · exact ih _ _ act h
      | .Stop e =>
          simp [runInner] at h
      | .RemoveStream id =>
          simp only [runInner, List.mem_cons] at h
          rcases h with h | h
          · exact Or.inr ⟨id, h⟩
          · exact ih _ _ act h

/-- The hook phase emits exactly the stop-hook marker, one abort per
registered stream, and the restart-hook marker. -/
theorem hookPhase_trace_actions {A : Type} (impl : ActorImpl A) (a : A)
    (c : Ctx A) (act : Action) (h : act ∈ (hookPhase impl a c).trace) :
    act = Action.stopHook ∨ (∃ id, act = Action.abortStream id) ∨
      act = Action.restartHook := by
  simp only [hookPhase, List.mem_cons, List.mem_append, List.mem_map] at h
  rcases h with h | ⟨⟨id, _, h⟩ | h⟩
  · exact Or.inl h
  · exact Or.inr (Or.inl ⟨id, h.symm⟩)
  · exact Or.inr (Or.inr (by simpa using h))

/-- The consumer loop never invokes the actor factory: the factory is not
even reachable from the spawned task (supervisor.rs moves only the actor,
the context and the mailbox consumer into it). -/
theorem runLoop_trace_no_factory {A : Type} (impl : ActorImpl A) :
    ∀ (n : Nat) (a : A) (c : Ctx A) (evs : List (ActorEvent A)),
    Action.factoryInvoke ∉ (runLoop impl n a c evs).trace := by
  intro n
  induction n with
  | zero => intro a c evs; simp [runLoop]
  | succ n ih =>
      intro a c evs
      simp only [runLoop, List.mem_append]
      rintro (⟨h | h⟩ | h)
      · rcases runInner_trace_actions evs a c _ h with h' | ⟨id, h'⟩ <;> cases h'
      · rcases hookPhase_trace_actions impl _ _ _ h with h' | ⟨id, h'⟩ | h' <;>
          cases h'
      · exact ih _ _ _ h

/-- The consumer loop never exits: the source `loop` has no break out of
the outer loop, so the `done` flag stays `false` for every fuel. -/
theorem runLoop_done_false {A : Type} (impl : ActorImpl A) :
    ∀ (n : Nat) (a : A) (c : Ctx A) (evs : List (ActorEvent A)),
    (runLoop impl n a c evs).done = false := by
  intro n
  induction n with
  | zero => intro a c evs; rfl
  | succ n ih => intro a c evs; simp only [runLoop]; exact ih _ _ _

/-- On success, the address `Supervisor::start` returns is exactly the one
built from the context: the actor id, the shared producer, and the present
exit receiver. -/
theorem Supervisor.start_result_ok {A : Type} (impl : ActorImpl A)
    (f : Unit → A) (actorId txId fuel : Nat) (evs : List (ActorEvent A))
    (ad : Addr A)
    (h : (Supervisor.start impl f actorId txId fuel evs).result = .ok ad) :
    ad = { actor_id := actorId, tx := txId, rx_exit := some () } := by
  unfold Supervisor.start at h
  simp only [Ctx.new] at h
  cases hs : (impl.onStarted (f ())
      ({ actor_id := actorId, streams := [], rx_exit := some () } : Ctx A)).2 with
  | none =>
      simp only [hs] at h
      injection h with h2
      exact h2.symm
  | some e =>
      simp only [hs] at h
      exact Except.noConfusion h

/-- Stream-abort actions are distinct from any fixed non-abort action, so a
block of aborts contributes nothing to its count. -/
theorem count_abortMap (act : Action) (hne : ∀ id, act ≠ Action.abortStream id)
    (l : List Nat) : (l.map Action.abortStream).count act = 0 := by
  rw [List.count_eq_zero]
  intro hmem
  obtain ⟨id, _, hid⟩ := List.mem_map.mp hmem
  exact hne id hid.symm

/-- One hook phase runs the stop hook exactly once. -/
theorem hookPhase_count_stop {A : Type} (impl : ActorImpl A) (a : A)
    (c : Ctx A) : (hookPhase impl a c).trace.count Action.stopHook = 1 := by
  simp [hookPhase, List.count_cons, List.count_append,
    count_abortMap Action.stopHook (fun id h => Action.noConfusion h)]

/-- One hook phase runs the restart hook exactly once. -/
theorem hookPhase_count_restart {A : Type} (impl : ActorImpl A) (a : A)
    (c : Ctx A) : (hookPhase impl a c).trace.count Action.restartHook = 1 := by
  simp [hookPhase, List.count_cons, List.count_append,
    count_abortMap Action.restartHook (fun id h => Action.noConfusion h)]

/-- One hook phase executes no event. -/
theorem hookPhase_count_exec {A : Type} (impl : ActorImpl A) (a : A)
    (c : Ctx A) : (hookPhase impl a c).trace.count Action.execRun = 0 := by
  simp [hookPhase, List.count_cons, List.count_append,
    count_abortMap Action.execRun (fun id h => Action.noConfusion h)]

/-! ## Claim theorems -/

/-- C3: for every `Sender` and message, if at send time the weak reference
to the mailbox producer cannot be upgraded (strong count zero, the actor is
gone), `Sender::send` returns `Ok(())` and the mailbox is untouched — no
event is enqueued, so no handler ever executes for that message; if the
upgrade succeeds, the message is enqueued as a normal `Exec` event
(propagating the closed-channel error exactly as a plain enqueue would). -/
theorem sender_weak_send_semantics {A T : Type} (a : Addr A)
    (h : A → Ctx A → T → A × Ctx A) (msg : T) (strong : Nat) (mb : Mailbox A) :
    (strong = 0 →
      senderSendFn a.mkSenderWeak h msg strong mb = (.ok (), mb)) ∧
    (0 < strong → mb.closed = false →
      senderSendFn a.mkSenderWeak h msg strong mb =
        (.ok (), { mb with
          queue := mb.queue ++ [ActorEvent.Exec (fun actor ctx => h actor ctx msg)] })) ∧
    (0 < strong → mb.closed = true →
      senderSendFn a.mkSenderWeak h msg strong mb =
        (.error Error.mailboxClosed, mb)) := by
  refine ⟨fun h0 => ?_, fun hpos hopen => ?_, fun hpos hclosed => ?_⟩
  · subst h0; rfl
  · have hne : strong ≠ 0 := Nat.pos_iff_ne_zero.mp hpos
    simp [senderSendFn, WeakRef.upgrade, hne, Mailbox.startSend, hopen]
  · have hne : strong ≠ 0 := Nat.pos_iff_ne_zero.mp hpos
    simp [senderSendFn, WeakRef.upgrade, hne, Mailbox.startSend, hclosed]

/-- Witness for C3 at concrete inputs: strong count zero gives a silent
no-op; positive strong count enqueues (or reports the closed channel). -/
theorem sender_weak_send_semantics_w :
    senderSendFn addrW.mkSenderWeak handlerW 5 0 mbW = (.ok (), mbW) ∧
    senderSendFn addrW.mkSenderWeak handlerW 5 2 mbW =
      (.ok (), { mbW with
        queue := mbW.queue ++ [ActorEvent.Exec (fun actor ctx => handlerW actor ctx 5)] }) ∧
    senderSendFn addrW.mkSenderWeak handlerW 5 2 mbClosedW =
      (.error Error.mailboxClosed, mbClosedW) :=
  ⟨(sender_weak_send_semantics addrW handlerW 5 0 mbW).1 rfl,
   (sender_weak_send_semantics addrW handlerW 5 2 mbW).2.1 (by decide) rfl,
   (sender_weak_send_semantics addrW handlerW 5 2 mbClosedW).2.2 (by decide) rfl⟩

/-- C4: the `Caller` built by `Addr::caller` captures a full clone of the
address (all fields preserved), so any collection of live handles that
contains that caller keeps the producer's strong count positive — and hence
the mailbox open — even when no `Addr` handle is alive. -/
theorem caller_strong_clone {A : Type} (a : Addr A) (hs : List (LiveHandle A))
    (hmem : LiveHandle.caller a.mkCallerEnv ∈ hs) :
    a.mkCallerEnv.addr = a ∧ 0 < strongCount a.tx hs ∧
      mailboxClosedFor a.tx hs = false := by
  have hone : LiveHandle.strongRefs a.tx (LiveHandle.caller a.mkCallerEnv) = 1 := by
    simp [LiveHandle.strongRefs, Addr.mkCallerEnv, Addr.clone]
  have hpos : 0 < strongCount a.tx hs := by
    have hm : LiveHandle.strongRefs a.tx (LiveHandle.caller a.mkCallerEnv) ∈
        hs.map (LiveHandle.strongRefs a.tx) := List.mem_map_of_mem _ hmem
    have hle := List.single_le_sum (l := hs.map (LiveHandle.strongRefs a.tx))
      (fun x _ => Nat.zero_le x) _ hm
    rw [hone] at hle
    exact hle
  refine ⟨rfl, hpos, ?_⟩
  simp only [mailboxClosedFor, beq_eq_false_iff_ne, ne_eq]
  exact Nat.pos_iff_ne_zero.mp hpos

/-- Witness for C4: a world holding only a sender and the caller (every
address dropped) still has a positive strong count and an open mailbox. -/
theorem caller_strong_clone_w :
    addrW.mkCallerEnv.addr = addrW ∧
    0 < strongCount addrW.tx
      [LiveHandle.sender addrW.mkSenderWeak, LiveHandle.caller addrW.mkCallerEnv] ∧
    mailboxClosedFor addrW.tx
      [LiveHandle.sender addrW.mkSenderWeak, LiveHandle.caller addrW.mkCallerEnv] = false :=
  caller_strong_clone addrW _
    (List.mem_cons_of_mem _ (List.mem_cons_self _ _))

/-- C8: `Addr::stop` and `Addr::send` fail exactly when the mailbox channel
is already closed; on an open mailbox each succeeds and appends exactly one
event (`Stop(err)`, resp. the `Exec` closure that will run the handler on
the message), and `send` returns without running the handler — the actor is
not an input of the operation, only the enqueued closure touches it. -/
theorem addr_stop_send_enqueue {A T : Type} (a : Addr A) (err : Option Error)
    (h : A → Ctx A → T → A × Ctx A) (msg : T) (mb : Mailbox A) :
    (mb.closed = true →
      a.stop err mb = .error Error.mailboxClosed ∧
      a.send h msg mb = .error Error.mailboxClosed) ∧
    (mb.closed = false →
      a.stop err mb = .ok { mb with queue := mb.queue ++ [ActorEvent.Stop err] } ∧
      a.send h msg mb = .ok { mb with
        queue := mb.queue ++ [ActorEvent.Exec (fun actor ctx => h actor ctx msg)] }) := by
  constructor <;> intro hc <;>
    exact ⟨by simp [Addr.stop, Mailbox.startSend, hc],
           by simp [Addr.send, Mailbox.startSend, hc]⟩

/-- Witness for C8 at concrete inputs: both operations succeed and enqueue
one event on the open mailbox, and both fail on the closed one. -/
theorem addr_stop_send_enqueue_w :
    addrW.stop (some Error.replyCanceled) mbW =
      .ok { mbW with queue := mbW.queue ++ [ActorEvent.Stop (some Error.replyCanceled)] } ∧
    addrW.send handlerW 4 mbW =
      .ok { mbW with
        queue := mbW.queue ++ [ActorEvent.Exec (fun actor ctx => handlerW actor ctx 4)] } ∧
    addrW.stop none mbClosedW = .error Error.mailboxClosed ∧
    addrW.send handlerW 4 mbClosedW = .error Error.mailboxClosed :=
  ⟨((addr_stop_send_enqueue addrW (some Error.replyCanceled) handlerW 4 mbW).2 rfl).1,
   ((addr_stop_send_enqueue addrW (some Error.replyCanceled) handlerW 4 mbW).2 rfl).2,
   ((addr_stop_send_enqueue addrW none handlerW 4 mbClosedW).1 rfl).1,
   ((addr_stop_send_enqueue addrW none handlerW 4 mbClosedW).1 rfl).2⟩

/-- C9: for each of `Addr`, `Caller` and `Sender`, equality holds exactly
when the `actor_id`s are equal, and equal handles feed the same value to
the hasher — independent of the producer, exit receiver, message type or
captured closure fields. -/
theorem handle_eq_hash_by_id {A T R : Type} (hf : Nat → Nat)
    (x y : Addr A) (c d : Caller T R) (s t : Sender T) :
    ((Addr.beq x y = true ↔ x.actor_id = y.actor_id) ∧
      (Addr.beq x y = true → Addr.hashWith hf x = Addr.hashWith hf y)) ∧
    ((Caller.beq c d = true ↔ c.actor_id = d.actor_id) ∧
      (Caller.beq c d = true → Caller.hashWith hf c = Caller.hashWith hf d)) ∧
    ((Sender.beq s t = true ↔ s.actor_id = t.actor_id) ∧
      (Sender.beq s t = true → Sender.hashWith hf s = Sender.hashWith hf t)) := by
  refine ⟨⟨by simp [Addr.beq], fun hb => ?_⟩,
          ⟨by simp [Caller.beq], fun hb => ?_⟩,
          ⟨by simp [Sender.beq], fun hb => ?_⟩⟩
  · have hid : x.actor_id = y.actor_id := by simpa [Addr.beq] using hb
    simp [Addr.hashWith, hid]
  · have hid : c.actor_id = d.actor_id := by simpa [Caller.beq] using hb
    simp [Caller.hashWith, hid]
  · have hid : s.actor_id = t.actor_id := by simpa [Sender.beq] using hb
    simp [Sender.hashWith, hid]

/-- Witness for C9: handles of one actor built with different closures,
producers and exit receivers compare equal and hash identically. -/
theorem handle_eq_hash_by_id_w :
    Addr.beq addrA addrB = true ∧
    Addr.hashWith (fun n => n * 2) addrA = Addr.hashWith (fun n => n * 2) addrB ∧
    Caller.beq callerA callerB = true ∧
    Caller.hashWith (fun n => n * 2) callerA = Caller.hashWith (fun n => n * 2) callerB ∧
    Sender.beq senderA senderB = true ∧
    Sender.hashWith (fun n => n * 2) senderA = Sender.hashWith (fun n => n * 2) senderB :=
  ⟨rfl,
   (handle_eq_hash_by_id (fun n => n * 2) addrA addrB callerA callerB senderA senderB).1.2 rfl,
   rfl,
   (handle_eq_hash_by_id (fun n => n * 2) addrA addrB callerA callerB senderA senderB).2.1.2 rfl,
   rfl,
   (handle_eq_hash_by_id (fun n => n * 2) addrA addrB callerA callerB senderA senderB).2.2.2 rfl⟩

/-- C5: once the mailbox channel reports closed (no more events will ever
be delivered), every outer-loop iteration still runs the stop hook and the
restart hook once more and then re-attempts the dequeue, which again
reports closed: after `n` further iterations the trace holds exactly `n`
stop-hook and `n` restart-hook runs and no event execution, the channel is
still closed, and the loop has not terminated — for every `n`, so the
hook-and-retry cycle repeats indefinitely. -/
theorem closed_mailbox_hook_cycles {A : Type} (impl : ActorImpl A) :
    ∀ (n : Nat) (a : A) (c : Ctx A),
      (runLoop impl n a c []).rest = [] ∧
      (runLoop impl n a c []).done = false ∧
      (runLoop impl n a c []).trace.count Action.stopHook = n ∧
      (runLoop impl n a c []).trace.count Action.restartHook = n ∧
      (runLoop impl n a c []).trace.count Action.execRun = 0 := by
  intro n
  induction n with
  | zero => intro a c; exact ⟨rfl, rfl, rfl, rfl, rfl⟩
  | succ n ih =>
      intro a c
      obtain ⟨h1, h2, h3, h4, h5⟩ :=
        ih (hookPhase impl a c).actor (hookPhase impl a c).ctx
      have htr : (runLoop impl (n + 1) a c []).trace =
          (hookPhase impl a c).trace ++
            (runLoop impl n (hookPhase impl a c).actor
              (hookPhase impl a c).ctx []).trace := rfl
      refine ⟨h1, h2, ?_, ?_, ?_⟩
      · rw [htr, List.count_append, hookPhase_count_stop, h3]
        omega
      · rw [htr, List.count_append, hookPhase_count_restart, h4]
        omega
      · rw [htr, List.count_append, hookPhase_count_exec, h5]

/-- C6: when a `Stop` event is dequeued, the iteration executes every event
enqueued before it first (threading the actor and context through them),
then runs the stop hook, then aborts every stream handle registered at that
point, then runs the restart hook, and then resumes dequeuing the events
after the `Stop` against the resulting — never reconstructed — actor
state. -/
theorem stop_event_cycle {A : Type} (impl : ActorImpl A) (n : Nat) (a : A)
    (c : Ctx A) (pre post : List (ActorEvent A)) (e : Option Error)
    (hfree : ∀ ev ∈ pre, ev.isStop = false) :
    runLoop impl (n + 1) a c (pre ++ ActorEvent.Stop e :: post) =
      { actor := (runLoop impl n
            (hookPhase impl (runInner a c pre).actor (runInner a c pre).ctx).actor
            (hookPhase impl (runInner a c pre).actor (runInner a c pre).ctx).ctx
            post).actor
        ctx := (runLoop impl n
            (hookPhase impl (runInner a c pre).actor (runInner a c pre).ctx).actor
            (hookPhase impl (runInner a c pre).actor (runInner a c pre).ctx).ctx
            post).ctx
        trace := (runInner a c pre).trace ++
          (Action.stopHook ::
            ((impl.onStopped (runInner a c pre).actor (runInner a c pre).ctx).2.streams.map
                Action.abortStream ++ [Action.restartHook])) ++
          (runLoop impl n
            (hookPhase impl (runInner a c pre).actor (runInner a c pre).ctx).actor
            (hookPhase impl (runInner a c pre).actor (runInner a c pre).ctx).ctx
            post).trace
        rest := (runLoop impl n
            (hookPhase impl (runInner a c pre).actor (runInner a c pre).ctx).actor
            (hookPhase impl (runInner a c pre).actor (runInner a c pre).ctx).ctx
            post).rest
        done := (runLoop impl n
            (hookPhase impl (runInner a c pre).actor (runInner a c pre).ctx).actor
            (hookPhase impl (runInner a c pre).actor (runInner a c pre).ctx).ctx
            post).done } := by
  have hi := runInner_nostop_append pre a c (ActorEvent.Stop e :: post) hfree
  simp only [runLoop, hi, runInner, hookPhase, List.append_nil, List.append_assoc]

/-- Witness for C6 at concrete inputs: one pre-`Stop` increment executes,
then stop hook, the single registered stream's abort, restart hook, with
nothing left to drain. -/
theorem stop_event_cycle_w :
    runLoop implW 1 0 ctxW ([incEv] ++ ActorEvent.Stop none :: []) =
      { actor := (runLoop implW 0
            (hookPhase implW (runInner 0 ctxW [incEv]).actor (runInner 0 ctxW [incEv]).ctx).actor
            (hookPhase implW (runInner 0 ctxW [incEv]).actor (runInner 0 ctxW [incEv]).ctx).ctx
            []).actor
        ctx := (runLoop implW 0
            (hookPhase implW (runInner 0 ctxW [incEv]).actor (runInner 0 ctxW [incEv]).ctx).actor
            (hookPhase implW (runInner 0 ctxW [incEv]).actor (runInner 0 ctxW [incEv]).ctx).ctx
            []).ctx
        trace := (runInner 0 ctxW [incEv]).trace ++
          (Action.stopHook ::
            ((implW.onStopped (runInner 0 ctxW [incEv]).actor (runInner 0 ctxW [incEv]).ctx).2.streams.map
                Action.abortStream ++ [Action.restartHook])) ++
          (runLoop implW 0
            (hookPhase implW (runInner 0 ctxW [incEv]).actor (runInner 0 ctxW [incEv]).ctx).actor
            (hookPhase implW (runInner 0 ctxW [incEv]).actor (runInner 0 ctxW [incEv]).ctx).ctx
            []).trace
        rest := []
        done := false } := by
  have h := stop_event_cycle implW 0 0 ctxW [incEv] [] none
    (by intro ev hev; simp only [List.mem_singleton] at hev; subst hev; rfl)
  rw [h]
  rfl

/-- C1: `Supervisor::start` invokes the actor factory exactly once, before
the start hook runs (the trace begins with the factory invocation followed
by the start hook and the factory never appears again); the spawned
consumer loop never invokes the factory, and after a `Stop`-triggered hook
cycle it resumes on the remaining events of the same mailbox with the actor
state produced by the hooks from the previous instance (no new instance is
constructed). -/
theorem supervisor_factory_once {A : Type} (impl : ActorImpl A) (f : Unit → A)
    (actorId txId fuel : Nat) (evs : List (ActorEvent A)) :
    (Supervisor.start impl f actorId txId fuel evs).trace.count Action.factoryInvoke = 1 ∧
    (Supervisor.start impl f actorId txId fuel evs).trace.take 2 =
      [Action.factoryInvoke, Action.startHook] ∧
    (∀ (n : Nat) (a : A) (c : Ctx A) (q : List (ActorEvent A)),
      Action.factoryInvoke ∉ (runLoop impl n a c q).trace) ∧
    (∀ (n : Nat) (a : A) (c : Ctx A) (pre post : List (ActorEvent A)) (e : Option Error),
      (∀ ev ∈ pre, ev.isStop = false) →
      (runLoop impl (n + 1) a c (pre ++ ActorEvent.Stop e :: post)).actor =
        (runLoop impl n
          (hookPhase impl (runInner a c pre).actor (runInner a c pre).ctx).actor
          (hookPhase impl (runInner a c pre).actor (runInner a c pre).ctx).ctx
          post).actor ∧
      (runLoop impl (n + 1) a c (pre ++ ActorEvent.Stop e :: post)).rest =
        (runLoop impl n
          (hookPhase impl (runInner a c pre).actor (runInner a c pre).ctx).actor
          (hookPhase impl (runInner a c pre).actor (runInner a c pre).ctx).ctx
          post).rest) := by
  refine ⟨?_, ?_, fun n a c q => runLoop_trace_no_factory impl n a c q, ?_⟩
  · unfold Supervisor.start
    simp only [Ctx.new]
    cases hs : (impl.onStarted (f ())
        ({ actor_id := actorId, streams := [], rx_exit := some () } : Ctx A)).2 with
    | none =>
        simp only [hs]
        have h0 : (runLoop impl fuel
            (impl.onStarted (f ())
              ({ actor_id := actorId, streams := [], rx_exit := some () } : Ctx A)).1.1
            (impl.onStarted (f ())
              ({ actor_id := actorId, streams := [], rx_exit := some () } : Ctx A)).1.2
            evs).trace.count Action.factoryInvoke = 0 :=
          List.count_eq_zero.mpr (runLoop_trace_no_factory impl _ _ _ _)
        simp [List.count_cons, h0]
    | some e => simp [hs]
  · unfold Supervisor.start
    simp only [Ctx.new]
    cases hs : (impl.onStarted (f ())
        ({ actor_id := actorId, streams := [], rx_exit := some () } : Ctx A)).2 with
    | none => simp [hs]
    | some e => simp [hs]
  · intro n a c pre post e hfree
    have hi := runInner_nostop_append pre a c (ActorEvent.Stop e :: post) hfree
    constructor <;> simp only [runLoop, hi, runInner]

/-- Witness for C1: the factory runs exactly once on a concrete start whose
observed mailbox contains a `Stop`, and the post-`Stop` resumption drains
the remaining events of the same mailbox. -/
theorem supervisor_factory_once_w :
    (Supervisor.start implW (fun _ => 0) 7 0 3 [incEv, ActorEvent.Stop none]).trace.count
        Action.factoryInvoke = 1 ∧
    (runLoop implW 1 0 ctxW ([incEv] ++ ActorEvent.Stop none :: [incEv])).rest =
      (runLoop implW 0
        (hookPhase implW (runInner 0 ctxW [incEv]).actor (runInner 0 ctxW [incEv]).ctx).actor
        (hookPhase implW (runInner 0 ctxW [incEv]).actor (runInner 0 ctxW [incEv]).ctx).ctx
        [incEv]).rest :=
  ⟨(supervisor_factory_once implW (fun _ => 0) 7 0 3 [incEv, ActorEvent.Stop none]).1,
   ((supervisor_factory_once implW (fun _ => 0) 7 0 3 [incEv, ActorEvent.Stop none]).2.2.2
      0 0 ctxW [incEv] [incEv] none
      (by intro ev hev; simp only [List.mem_singleton] at hev; subst hev; rfl)).2⟩

/-- C10: every address `Supervisor::start` hands back carries the shared
exit receiver (`rx_exit` is `Some`), so `wait_for_stop` on it (or on any of
its clones, which copy the field) never takes the no-signal
suspend-forever branch.  The context internals being out of src/, this
relies on the spec-modelled `Ctx.new` storing the provided receiver. -/
theorem supervisor_addr_has_exit {A : Type} (impl : ActorImpl A)
    (f : Unit → A) (actorId txId fuel : Nat) (evs : List (ActorEvent A))
    (ad : Addr A)
    (h : (Supervisor.start impl f actorId txId fuel evs).result = .ok ad) :
    ad.rx_exit = some () ∧ ad.clone.rx_exit = some () ∧
      ∀ st, ad.waitForStop st ≠ WaitOutcome.suspendedForever := by
  have hd := Supervisor.start_result_ok impl f actorId txId fuel evs ad h
  subst hd
  refine ⟨rfl, rfl, fun st => ?_⟩
  cases st <;> simp [Addr.waitForStop]

/-- Witness for C10 at a concrete successful start. -/
theorem supervisor_addr_has_exit_w :
    addrW.rx_exit = some () ∧
    addrW.waitForStop ExitState.pending ≠ WaitOutcome.suspendedForever :=
  ⟨(supervisor_addr_has_exit implW (fun _ => 0) 7 0 3 [] addrW rfl).1,
   (supervisor_addr_has_exit implW (fun _ => 0) 7 0 3 [] addrW rfl).2.2 ExitState.pending⟩

/-- C2 counterexample: the claim says `wait_for_stop` on an address with a
configured exit signal resolves exactly when the actor's consumer loop
genuinely exits, and not before.  On the code it fails "not before":
`Supervisor::start` (supervisor.rs line 80) never sends on `tx_exit` and
drops it on return, so for this concrete supervisor-started actor
`wait_for_stop` already resolves the moment `start` returns, while the
spawned loop has not exited (and never does: `done` stays `false`). -/
theorem wait_for_stop_cex :
    (Supervisor.start implW (fun _ => 0) 7 0 3 []).result = Except.ok addrW ∧
    addrW.waitForStop (Supervisor.start implW (fun _ => 0) 7 0 3 []).exitStateAtReturn =
      WaitOutcome.resolved ∧
    (Supervisor.start implW (fun _ => 0) 7 0 3 []).loopRun.map LoopResult.done =
      some false :=
  ⟨rfl, rfl, rfl⟩

/-- C2 (amended): `wait_for_stop` resolves exactly when the exit channel is
no longer pending; because `Supervisor::start` drops the exit sender
without sending when it returns, the exit channel of a supervisor-started
actor is already canceled at return, so `wait_for_stop` on the returned
address resolves immediately — before, not when, the consumer loop exits
(the loop in fact never exits); and for an address with no exit signal
configured, `wait_for_stop` suspends forever. -/
theorem wait_for_stop_amended {A : Type} (impl : ActorImpl A) (f : Unit → A)
    (actorId txId fuel : Nat) (evs : List (ActorEvent A)) :
    (Supervisor.start impl f actorId txId fuel evs).exitStateAtReturn =
      ExitState.canceled ∧
    (∀ ad, (Supervisor.start impl f actorId txId fuel evs).result = .ok ad →
      ad.waitForStop (Supervisor.start impl f actorId txId fuel evs).exitStateAtReturn =
        WaitOutcome.resolved) ∧
    (∀ l, (Supervisor.start impl f actorId txId fuel evs).loopRun = some l →
      l.done = false) ∧
    (∀ (b : Addr A) (st : ExitState), b.rx_exit = none →
      b.waitForStop st = WaitOutcome.suspendedForever) := by
  refine ⟨?_, fun ad had => ?_, fun l hl => ?_, fun b st hb => ?_⟩
  · unfold Supervisor.start
    cases hs : (impl.onStarted (f ()) (Ctx.new A actorId (some ()))).2 <;>
      simp [hs]
  · have hd := Supervisor.start_result_ok impl f actorId txId fuel evs ad had
    subst hd
    have hc : (Supervisor.start impl f actorId txId fuel evs).exitStateAtReturn =
        ExitState.canceled := by
      unfold Supervisor.start
      cases hs : (impl.onStarted (f ()) (Ctx.new A actorId (some ()))).2 <;>
        simp [hs]
    rw [hc]
    rfl
  · revert hl
    unfold Supervisor.start
    simp only [Ctx.new]
    cases hs : (impl.onStarted (f ())
        ({ actor_id := actorId, streams := [], rx_exit := some () } : Ctx A)).2 with
    | none =>
        simp only [hs]
        intro hl
        injection hl with hl2
        rw [← hl2]
        exact runLoop_done_false impl _ _ _ _
    | some e =>
        simp only [hs]
        intro hl
        exact Option.noConfusion hl
  · simp [Addr.waitForStop, hb]

/-- Witness for C2 (amended) at concrete inputs: the supervisor-started
address resolves at once; an address without the signal never does. -/
theorem wait_for_stop_amended_w :
    addrW.waitForStop (Supervisor.start implW (fun _ => 0) 7 0 3 []).exitStateAtReturn =
      WaitOutcome.resolved ∧
    addrNoExit.waitForStop ExitState.pending = WaitOutcome.suspendedForever :=
  ⟨(wait_for_stop_amended implW (fun _ => 0) 7 0 3 []).2.1 addrW rfl,
   (wait_for_stop_amended implW (fun _ => 0) 7 0 3 []).2.2.2 addrNoExit ExitState.pending rfl⟩

end Xactor
